import Mathlib

/-!
# Verification of the `DispatchableStore` state container (src/index.js)

Shallow embedding of the observable-store library: a synchronous,
action-dispatching state container with a reducer table, a chain registry
and a subscription registry built on a synchronous event emitter.

Modelling conventions:
* JavaScript values that flow through `typeof` checks, derived projections
  and object fields are modelled by `JsVal`; object/array/function identity
  is a `Nat` reference, so equality of `JsVal` models the JS `===`/`!==`
  comparison (value equality on primitives, reference equality on objects).
* The store state and action payloads are type parameters `σ` and `π`;
  reducers and state mappers are Lean functions (the source treats them as
  opaque callables).
* Mutable store fields become a `Store` record threaded through operations.
* Thrown exceptions are surfaced as an `Option JsErr` result component;
  the unbounded chain recursion of `dispatch` is modelled with fuel, fuel
  exhaustion standing for JS call-stack exhaustion.
* Side effects that the claims observe (the `console.warn` diagnostic, the
  `change` emission of the private `[setState]` step, and the subscriber
  callback invocations performed synchronously by that emission) are
  recorded as an `Event` trace in execution order.
-/

namespace ObservableStore

/-- JS runtime values, to the granularity the store inspects them:
primitives carry their value, objects / arrays / functions carry a heap
reference so that `JsVal` equality models the JS `===` comparison.
(JS numbers are modelled by `Int`; the store only indexes arrays and
compares projections with them, which the model preserves.) -/
inductive JsVal where
  | undef
  | nullV
  | boolV (b : Bool)
  | numV (n : Int)
  | strV (s : String)
  | symV (r : Nat)
  | objV (r : Nat)
  | arrV (r : Nat)
  | funcV (r : Nat)
deriving DecidableEq, Repr

/-- The JS `typeof` operator on the modelled values.  In particular
`typeof null`, `typeof {}` and `typeof []` are all the string "object". -/
def jsTypeof : JsVal → String
  | .undef => "undefined"
  | .nullV => "object"
  | .boolV _ => "boolean"
  | .numV _ => "number"
  | .strV _ => "string"
  | .symV _ => "symbol"
  | .objV _ => "object"
  | .arrV _ => "object"
  | .funcV _ => "function"

/-- `isFunc` from src/index.js line 5: `typeof maybeFunc == 'function'`. -/
def isFunc (v : JsVal) : Bool := jsTypeof v == "function"

/-- `isObj` from src/index.js line 6: `typeof maybeObj == 'object'`. -/
def isObj (v : JsVal) : Bool := jsTypeof v == "object"

/-- `isNumber` from src/index.js line 7: `typeof maybeNum == 'number'`. -/
def isNumber (v : JsVal) : Bool := jsTypeof v == "number"

/-- Whether `new DispatchableStore(v)` throws.  Line 17 declares
`constructor(initialState = {})`: passing `undefined` (explicitly or by
omitting the argument) binds the default empty record, which passes the
`isObj` check; any other value reaches the check of lines 19-21
directly, and the constructor throws `TypeError` exactly when
`!isObj(initialState)`. -/
def storeCtorThrows (v : JsVal) : Bool :=
  match v with
  | .undef => false
  | v => ! isObj v

/-- A caller-visible action `{ type, payload }`. -/
structure Action (π : Type) where
  type : String
  payload : π
deriving DecidableEq, Repr

/-- The internal action built at dispatch time (line 70):
`Object.assign({}, action, { '@@chained': chained })`. -/
structure CAction (π : Type) where
  type : String
  payload : π
  chained : Bool
deriving DecidableEq, Repr

/-- One subscriber record: the wrapper closure pushed onto
`this.subscribers` (lines 139-145) retains the `stateMapper`; `active`
records whether the wrapper is still attached to the `change` event
(it starts attached; `unsubscribe` detaches it with `off`). -/
structure Sub (σ : Type) where
  mapper : σ → JsVal
  active : Bool

/-- Thrown JS exceptions the model distinguishes. -/
inductive JsErr where
  | typeError (msg : String)
  | stackOverflow
deriving DecidableEq, Repr

/-- Observable side effects of a dispatch, in execution order:
`warn t` is the `console.warn` for an unregistered type (line 76),
`change act prev next` is the `emit('change', {action, prev, state})`
of the private `[setState]` step (line 164), and `invoke i act p t`
records subscriber `i`'s callback being called as `callback(action,
prevTarget, target)` (line 142). -/
inductive Event (σ π : Type) where
  | warn (t : String)
  | change (act : CAction π) (prev next : σ)
  | invoke (idx : Nat) (act : CAction π) (prevTarget target : JsVal)

/-- The reducer table: a JS record mapping action types to values that
may or may not be callable (`some f` = a function, `none` = a
non-function property value). -/
abbrev RTable (σ π : Type) := List (String × Option (σ → π → σ))

/-- The store instance state: `state`, `reducer` (`none` models the
field being `undefined` — the constructor never initializes it),
`chains` and `subscribers`, as set up by the constructor (lines 22-24)
and mutated by the methods. -/
structure Store (σ π : Type) where
  state : σ
  reducer : Option (RTable σ π)
  chains : List (String × List (Action π))
  subscribers : List (Sub σ)

/-- The store right after `new DispatchableStore(initialState)` with a
valid (object) initial state: `this.state = initialState`,
`this.chains = {}`, `this.subscribers = []`; note that `this.reducer`
is left undefined (`none`). -/
def mkStore {σ π : Type} (s : σ) : Store σ π :=
  { state := s, reducer := none, chains := [], subscribers := [] }

/-- `register(reducer)` (lines 48-53) with a valid (object) argument:
`this.reducer = reducer`, replacing any previous table wholesale. -/
def register {σ π : Type} (st : Store σ π) (table : RTable σ π) : Store σ π :=
  { st with reducer := some table }

/-- The effective reducer for an action type: `this.reducer[type]` when
that property value passes the `isFunc` check of line 73, else nothing
(absent key or non-function value both fall to the warning branch). -/
def effReducer {σ π : Type} (table : RTable σ π) (t : String) : Option (σ → π → σ) :=
  match table.lookup t with
  | some (some f) => some f
  | _ => none

/-- `this.chains[from] = this.chains[from] || []; this.chains[from].push(action)`
(lines 99-100) on the association-list representation of the chains record. -/
def appendChain {π : Type} :
    List (String × List (Action π)) → String → Action π → List (String × List (Action π))
  | [], k, a => [(k, [a])]
  | (k', l) :: rest, k, a =>
      if k' = k then (k', l ++ [a]) :: rest else (k', l) :: appendChain rest k a

/-- `chain(from, action)` (lines 98-101). -/
def chain {σ π : Type} (st : Store σ π) (from_ : String) (a : Action π) : Store σ π :=
  { st with chains := appendChain st.chains from_ a }

/-- The notification fan-out of one `change` emission, starting at
subscriber index `k`: each attached (active) wrapper computes
`target = stateMapper(state)` and `prevTarget = stateMapper(prev)` and
calls the callback only if `target !== prevTarget` (lines 139-143).
Listeners fire synchronously in registration order. -/
def notifyFrom {σ π : Type} (act : CAction π) (prev next : σ) :
    Nat → List (Sub σ) → List (Event σ π)
  | _, [] => []
  | k, s :: rest =>
      (if s.active && (s.mapper next != s.mapper prev)
        then [Event.invoke k act (s.mapper prev) (s.mapper next)] else [])
      ++ notifyFrom act prev next (k + 1) rest

/-- The private `[setState]` step (lines 161-165): record the previous
state, overwrite `this.state`, and emit one `change` event, which
synchronously notifies the subscribers. -/
def setState {σ π : Type} (st : Store σ π) (nextState : σ) (act : CAction π) :
    Store σ π × List (Event σ π) :=
  ({ st with state := nextState },
   Event.change act st.state nextState :: notifyFrom act st.state nextState 0 st.subscribers)

/-- Result of a (possibly throwing) store operation: the store as left
behind, the events emitted before returning or throwing, and the
exception if one was thrown. -/
abbrev DResult (σ π : Type) := Store σ π × List (Event σ π) × Option JsErr

/-- The `forEach` loop of line 81: dispatch each chained action in
order via `go`, stopping (exception propagation) at the first throw. -/
def runChainList {σ π : Type} (go : Store σ π → Action π → DResult σ π) :
    Store σ π → List (Action π) → DResult σ π
  | st, [] => (st, [], none)
  | st, a :: rest =>
      let r := go st a
      match r.2.2 with
      | some e => (r.1, r.2.1, some e)
      | none =>
          let r' := runChainList go r.1 rest
          (r'.1, r.2.1 ++ r'.2.1, r'.2.2)

/-- One level of `dispatch(action, chained)` (lines 68-83), with `go`
standing for the recursive chained dispatches:
1. build the internal action with the `@@chained` marker;
2. read `this.reducer[act.type]` — if `this.reducer` is undefined this
   property access throws a `TypeError`; if the value is callable, run
   it on `(this.state, act.payload)` and commit via `[setState]`, else
   only warn;
3. look up `this.chains[act.type]` and dispatch each listed action in
   order with `chained = true`. -/
def dispatchStep {σ π : Type} (go : Store σ π → Action π → DResult σ π)
    (st : Store σ π) (a : Action π) (chained : Bool) : DResult σ π :=
  let act : CAction π := ⟨a.type, a.payload, chained⟩
  match st.reducer with
  | none => (st, [], some (JsErr.typeError "Cannot read properties of undefined"))
  | some table =>
      let r1 : Store σ π × List (Event σ π) :=
        match effReducer table a.type with
        | some f => setState st (f st.state a.payload) act
        | none => (st, [Event.warn a.type])
      let chainList := (r1.1.chains.lookup a.type).getD []
      let r2 := runChainList go r1.1 chainList
      (r2.1, r1.2 ++ r2.2.1, r2.2.2)

/-- `dispatch(action, chained)` with fuel bounding the chain recursion
depth; running out of fuel models JS call-stack exhaustion on a chain
cycle. -/
def dispatch {σ π : Type} : Nat → Store σ π → Action π → Bool → DResult σ π
  | 0, st, _, _ => (st, [], some JsErr.stackOverflow)
  | n + 1, st, a, chained =>
      dispatchStep (fun st' a' => dispatch n st' a' true) st a chained

/-- `subscribe(stateMapper)(callback)` (lines 135-148): throws if the
callback is not callable; otherwise pushes a wrapper retaining
`stateMapper`, attaches it to the `change` event, and returns its index
`this.subscribers.length - 1`.  The opaque callback itself is observed
only through the `invoke` events carrying its arguments. -/
def subscribe {σ π : Type} (st : Store σ π) (stateMapper : σ → JsVal) (callback : JsVal) :
    Except JsErr (Store σ π × Nat) :=
  if isFunc callback then
    .ok ({ st with subscribers := st.subscribers ++ [⟨stateMapper, true⟩] },
         st.subscribers.length)
  else
    .error (JsErr.typeError "Expected a Function")

/-- Detach the wrapper at position `n` of the subscriber list
(`this.off('change', this.subscribers[index])`): out-of-range or
non-integral indices read `undefined` and detach nothing. -/
def detachAt {σ : Type} : List (Sub σ) → Nat → List (Sub σ)
  | [], _ => []
  | s :: rest, 0 => { s with active := false } :: rest
  | s :: rest, n + 1 => s :: detachAt rest n

/-- `unsubscribe(index)` (lines 116-119): throws unless
`typeof index == 'number'`; otherwise detaches the listener stored at
that index from the `change` event (the subscriber slot itself is
never removed from the list). -/
def unsubscribe {σ π : Type} (st : Store σ π) (index : JsVal) :
    Except JsErr (Store σ π) :=
  match index with
  | .numV n =>
      .ok { st with subscribers :=
              if 0 ≤ n then detachAt st.subscribers n.toNat else st.subscribers }
  | v =>
      if isNumber v then
        .ok st
      else
        .error (JsErr.typeError "Expected a Number")

/-- The events of a trace that are subscriber-callback invocations of
subscriber `i`. -/
def invocationsFor {σ π : Type} (i : Nat) (evs : List (Event σ π)) : List (Event σ π) :=
  evs.filter fun e =>
    match e with
    | .invoke j _ _ _ => j == i
    | _ => false

/-- The events of a trace that are `change` emissions. -/
def changeEvents {σ π : Type} (evs : List (Event σ π)) : List (Event σ π) :=
  evs.filter fun e =>
    match e with
    | .change _ _ _ => true
    | _ => false

/-- A sequence of root-level dispatches (each with `chained = false`),
collecting the event traces; a thrown exception ends the sequence. -/
def dispatchSeq {σ π : Type} (n : Nat) : Store σ π → List (Action π) → List (Event σ π)
  | _, [] => []
  | st, a :: rest =>
      let r := dispatch n st a false
      match r.2.2 with
      | some _ => r.2.1
      | none => r.2.1 ++ dispatchSeq n r.1 rest

/-! ## Heap model for reference-identity claims

`getState` (line 34) and the internal-action construction of `dispatch`
(line 70) both use `Object.assign({}, ...)`; their claims are about
object identity and mutation, so they are embedded against a small heap
of JS objects addressed by `Nat` references. -/

/-- A JS object: its own enumerable properties in insertion order. -/
abbrev Obj := List (String × JsVal)

/-- Property write (`o[k] = v`): overwrite an existing key in place,
else append — JS property insertion-order semantics. -/
def setKey : Obj → String → JsVal → Obj
  | [], k, v => [(k, v)]
  | (k', v') :: rest, k, v =>
      if k' = k then (k', v) :: rest else (k', v') :: setKey rest k v

/-- Property read. -/
def getKey (o : Obj) (k : String) : Option JsVal := o.lookup k

/-- A heap of allocated objects; the reference of an object is its
position. -/
structure Heap where
  objs : List Obj

/-- Dereference. -/
def Heap.get (h : Heap) (r : Nat) : Option Obj := h.objs[r]?

/-- Allocate a fresh object, returning the new heap and its (fresh)
reference. -/
def Heap.alloc (h : Heap) (o : Obj) : Heap × Nat :=
  (⟨h.objs ++ [o]⟩, h.objs.length)

/-- Mutate one property of the object at `r` (`obj[k] = v`). -/
def Heap.setField (h : Heap) (r : Nat) (k : String) (v : JsVal) : Heap :=
  ⟨h.objs.set r (setKey ((h.objs[r]?).getD []) k v)⟩

/-- `Object.assign({}, o)` for the object at `r`: allocate a fresh
object with a shallow copy of the source's own properties. -/
def objAssignNew (h : Heap) (r : Nat) : Heap × Nat :=
  h.alloc ((h.get r).getD [])

/-- `getState()` (lines 33-35): `Object.assign({}, this.state)` where
`stateRef` is the reference held in `this.state`. -/
def getState (h : Heap) (stateRef : Nat) : Heap × Nat :=
  objAssignNew h stateRef

/-- Line 70 of `dispatch`, on the heap:
`Object.assign({}, action, { '@@chained': chained })` — allocate a
fresh object carrying the action's own properties with the `@@chained`
marker set. -/
def buildInternalAction (h : Heap) (actionRef : Nat) (chained : Bool) : Heap × Nat :=
  h.alloc (setKey ((h.get actionRef).getD []) "@@chained" (JsVal.boolV chained))

/-! ## Helper lemmas -/

/-- Writing one key of an object leaves every other key unchanged. -/
theorem getKey_setKey_ne (o : Obj) (k k' : String) (v : JsVal) (h : k' ≠ k) :
    getKey (setKey o k v) k' = getKey o k' := by
  have hbeq : (k' == k) = false := by simp [beq_iff_eq, h]
  induction o with
  | nil =>
      simp [setKey, getKey, List.lookup, hbeq]
  | cons p rest ih =>
      obtain ⟨k0, v0⟩ := p
      by_cases hk : k0 = k
      · subst hk
        simp only [setKey, if_pos rfl, getKey, List.lookup]
        have : (k' == k0) = false := by simp [beq_iff_eq, h]
        simp [this] at ih ⊢
      · simp only [setKey, if_neg hk, getKey, List.lookup]
        by_cases hk' : k' = k0
        · simp [hk', beq_iff_eq]
        · have : (k' == k0) = false := by simp [beq_iff_eq, hk']
          simpa [this, getKey] using ih

/-! ## Claims -/

/-- C5, counterexample: an array and the primitive `null` pass the
`typeof v == 'object'` check, and the primitive `undefined` selects the
default parameter `initialState = {}`, so all three are accepted (no
throw), contradicting "every primitive, every array-like value ... is
rejected". -/
theorem ctor_accepts_array_null_and_undefined :
    storeCtorThrows (JsVal.arrV 0) = false ∧
    storeCtorThrows JsVal.nullV = false ∧
    storeCtorThrows JsVal.undef = false := by
  decide

/-- C5 (amended): construction throws a `TypeError` exactly when the
supplied value is not `undefined` (an explicit `undefined` binds the
default empty record of line 17 and is accepted) and its JS `typeof`
is not the string "object": booleans, numbers, strings, symbols and
functions are rejected, while plain records, arrays, `null` and
`undefined` are all accepted. -/
theorem ctor_throws_iff_nonobject_excluding_default :
    ∀ v : JsVal, storeCtorThrows v = true
      ↔ (v ≠ JsVal.undef ∧ jsTypeof v ≠ "object") := by
  intro v
  cases v <;> simp [storeCtorThrows, isObj, jsTypeof]

/-- C8: registering `m1` and then `m2` leaves the active reducer table
equal to exactly `m2` (`this.reducer = reducer` replaces the whole
table), and an action type mapped by `m1` but absent from `m2` has no
effective reducer afterwards — no merging. -/
theorem register_replaces_table {σ π : Type} (st : Store σ π) (m1 m2 : RTable σ π) :
    (register (register st m1) m2).reducer = some m2 ∧
    (∀ (T : String) (f : σ → π → σ), effReducer m1 T = some f →
      m2.lookup T = none → effReducer m2 T = none) := by
  refine ⟨rfl, fun T f _ hlk => ?_⟩
  simp [effReducer, hlk]

/-- Witness for C8 at a concrete store and tables. -/
theorem register_replaces_table_witness :
    (register (register (mkStore (0 : Int)) [("A", some (fun (s : Int) (p : Int) => s + p))])
        [("B", some (fun (s : Int) (_ : Int) => s))]).reducer
      = some [("B", some (fun (s : Int) (_ : Int) => s))] ∧
    effReducer [("A", some (fun (s : Int) (p : Int) => s + p))] "A" = some (fun (s : Int) (p : Int) => s + p) ∧
    effReducer [("B", some (fun (s : Int) (_ : Int) => s))] "A" = none :=
  ⟨(register_replaces_table (mkStore (0 : Int)) [("A", some (fun (s : Int) (p : Int) => s + p))]
      [("B", some (fun (s : Int) (_ : Int) => s))]).1,
   rfl,
   (register_replaces_table (mkStore (0 : Int)) [("A", some (fun (s : Int) (p : Int) => s + p))]
      [("B", some (fun (s : Int) (_ : Int) => s))]).2 "A" (fun (s : Int) (p : Int) => s + p) rfl rfl⟩

/-- C6: for a valid state reference, `getState()` returns a fresh
reference (not the internal one) whose object has exactly the same
properties as the internal state object, and mutating any property of
the returned copy leaves the internal state object untouched. -/
theorem getState_returns_independent_copy (h : Heap) (stateRef : Nat)
    (hr : stateRef < h.objs.length) :
    (getState h stateRef).2 ≠ stateRef ∧
    (getState h stateRef).1.get (getState h stateRef).2 = h.get stateRef ∧
    (∀ (k : String) (v : JsVal),
      ((getState h stateRef).1.setField (getState h stateRef).2 k v).get stateRef
        = h.get stateRef) := by
  obtain ⟨o, ho⟩ : ∃ o, h.objs[stateRef]? = some o :=
    ⟨h.objs[stateRef], List.getElem?_eq_getElem hr⟩
  refine ⟨Nat.ne_of_gt hr, ?_, ?_⟩
  · simp [getState, objAssignNew, Heap.alloc, Heap.get, ho,
      List.getElem?_concat_length]
  · intro k v
    simp only [getState, objAssignNew, Heap.alloc, Heap.get, Heap.setField]
    rw [List.getElem?_set_ne (Nat.ne_of_gt hr)]
    rw [List.getElem?_append, if_pos hr]

/-- Witness for C6 at a concrete one-object heap. -/
theorem getState_returns_independent_copy_witness :
    (0 : Nat) < (Heap.mk [[("count", JsVal.numV 0)]]).objs.length ∧
    ((getState (Heap.mk [[("count", JsVal.numV 0)]]) 0).2 ≠ 0 ∧
     (getState (Heap.mk [[("count", JsVal.numV 0)]]) 0).1.get
        (getState (Heap.mk [[("count", JsVal.numV 0)]]) 0).2
       = (Heap.mk [[("count", JsVal.numV 0)]]).get 0 ∧
     (∀ (k : String) (v : JsVal),
       ((getState (Heap.mk [[("count", JsVal.numV 0)]]) 0).1.setField
           (getState (Heap.mk [[("count", JsVal.numV 0)]]) 0).2 k v).get 0
         = (Heap.mk [[("count", JsVal.numV 0)]]).get 0)) :=
  ⟨by decide,
   getState_returns_independent_copy (Heap.mk [[("count", JsVal.numV 0)]]) 0 (by decide)⟩

/-- C9: `dispatch`'s internal action (line 70) is a freshly allocated
copy of the caller's action augmented with the `@@chained` marker: the
caller's action object is left byte-for-byte unchanged, the internal
action lives at a different reference, it holds the original
properties with `@@chained` set, and every property other than
`@@chained` reads the same as on the original. -/
theorem dispatch_does_not_mutate_action (h : Heap) (actionRef : Nat) (b : Bool)
    (hr : actionRef < h.objs.length) :
    (buildInternalAction h actionRef b).1.get actionRef = h.get actionRef ∧
    (buildInternalAction h actionRef b).2 ≠ actionRef ∧
    (buildInternalAction h actionRef b).1.get (buildInternalAction h actionRef b).2
      = some (setKey ((h.get actionRef).getD []) "@@chained" (JsVal.boolV b)) ∧
    (∀ k : String, k ≠ "@@chained" →
      getKey (setKey ((h.get actionRef).getD []) "@@chained" (JsVal.boolV b)) k
        = getKey ((h.get actionRef).getD []) k) := by
  refine ⟨?_, Nat.ne_of_gt hr, ?_, fun k hk => getKey_setKey_ne _ _ _ _ hk⟩
  · simp only [buildInternalAction, Heap.alloc, Heap.get]
    rw [List.getElem?_append, if_pos hr]
  · simp [buildInternalAction, Heap.alloc, Heap.get, List.getElem?_concat_length]

/-- Witness for C9 at a concrete heap holding one action object. -/
theorem dispatch_does_not_mutate_action_witness :
    (0 : Nat) < (Heap.mk [[("type", JsVal.strV "A"), ("payload", JsVal.numV 1)]]).objs.length ∧
    ((buildInternalAction (Heap.mk [[("type", JsVal.strV "A"), ("payload", JsVal.numV 1)]]) 0
        true).1.get 0
       = (Heap.mk [[("type", JsVal.strV "A"), ("payload", JsVal.numV 1)]]).get 0 ∧
     (buildInternalAction (Heap.mk [[("type", JsVal.strV "A"), ("payload", JsVal.numV 1)]]) 0
        true).2 ≠ 0 ∧
     (buildInternalAction (Heap.mk [[("type", JsVal.strV "A"), ("payload", JsVal.numV 1)]]) 0
        true).1.get
       (buildInternalAction (Heap.mk [[("type", JsVal.strV "A"), ("payload", JsVal.numV 1)]]) 0
        true).2
       = some (setKey
           (((Heap.mk [[("type", JsVal.strV "A"), ("payload", JsVal.numV 1)]]).get 0).getD [])
           "@@chained" (JsVal.boolV true)) ∧
     (∀ k : String, k ≠ "@@chained" →
       getKey (setKey
           (((Heap.mk [[("type", JsVal.strV "A"), ("payload", JsVal.numV 1)]]).get 0).getD [])
           "@@chained" (JsVal.boolV true)) k
         = getKey
             (((Heap.mk [[("type", JsVal.strV "A"), ("payload", JsVal.numV 1)]]).get 0).getD [])
             k)) :=
  ⟨by decide,
   dispatch_does_not_mutate_action
     (Heap.mk [[("type", JsVal.strV "A"), ("payload", JsVal.numV 1)]]) 0 true (by decide)⟩

/-- `chain` appends to the list stored under the source type, creating
it on first use, and looks it up afterwards. -/
theorem lookup_appendChain {π : Type} (cs : List (String × List (Action π)))
    (k : String) (a : Action π) :
    (appendChain cs k a).lookup k = some (((cs.lookup k).getD []) ++ [a]) := by
  induction cs with
  | nil => simp [appendChain, List.lookup]
  | cons p rest ih =>
      obtain ⟨k0, l0⟩ := p
      by_cases hk : k0 = k
      · subst hk
        simp [appendChain, List.lookup]
      · have hb : (k == k0) = false := by
          simp [beq_iff_eq]
          exact fun hkk => hk hkk.symm
        simp [appendChain, hk, List.lookup, hb, ih]

/-- C1, counterexample store: no reducer is registered for type "T",
but a chain entry "T" -> {type:"B"} exists and "B" has a reducer. -/
def chainOnlyStore : Store Int Int :=
  { state := 0,
    reducer := some [("B", some (fun (s : Int) (_ : Int) => s + 1))],
    chains := [("T", [⟨"B", 0⟩])],
    subscribers := [] }

/-- C1, counterexample: with no reducer registered for "T" the dispatch
of {type:"T"} still changes the state (0 to 1), because the chain
fan-out runs regardless and the chained action has a reducer — the
claim's "the state is left unchanged by that dispatch" fails. -/
theorem dispatch_unregistered_type_can_change_state :
    effReducer [("B", some (fun (s : Int) (_ : Int) => s + 1))] "T" = none ∧
    chainOnlyStore.state = 0 ∧
    (dispatch 2 chainOnlyStore ⟨"T", 0⟩ false).1.state = 1 ∧
    (dispatch 2 chainOnlyStore ⟨"T", 0⟩ false).2.2 = none := by
  refine ⟨rfl, rfl, ?_, ?_⟩ <;> rfl

/-- C1 (amended): with a reducer table registered, dispatching
{type:T, payload:p} where `r` is the registered (callable) reducer for
T commits a state transition to exactly `r(prevState, p)` (the first
`change` emission of the dispatch), and the final state equals
`r(prevState, p)` when no chain actions are registered for T; when no
reducer is registered for T and no chain actions are registered for T,
the dispatch leaves the state unchanged (chained follow-up actions may
otherwise change it further). -/
theorem dispatch_applies_registered_reducer :
    ∀ {σ π : Type} (n : Nat) (st : Store σ π) (table : RTable σ π)
      (T : String) (p : π) (ch : Bool),
      st.reducer = some table →
      (∀ r : σ → π → σ, effReducer table T = some r →
        ((dispatch (n + 1) st ⟨T, p⟩ ch).2.1.head?
            = some (Event.change ⟨T, p, ch⟩ st.state (r st.state p))) ∧
        (st.chains.lookup T = none →
          (dispatch (n + 1) st ⟨T, p⟩ ch).1.state = r st.state p ∧
          (dispatch (n + 1) st ⟨T, p⟩ ch).2.2 = none)) ∧
      (effReducer table T = none → st.chains.lookup T = none →
        (dispatch (n + 1) st ⟨T, p⟩ ch).1.state = st.state ∧
        (dispatch (n + 1) st ⟨T, p⟩ ch).2.2 = none) := by
  intro σ π n st table T p ch hred
  constructor
  · intro r hr
    constructor
    · simp [dispatch, dispatchStep, hred, hr, setState]
    · intro hch
      simp [dispatch, dispatchStep, hred, hr, hch, setState, runChainList]
  · intro hr hch
    simp [dispatch, dispatchStep, hred, hr, hch, runChainList]

/-- Witness for C1 at a concrete store: reducer "INC" adds the payload,
no chains, initial state 0, payload 5 gives state 5. -/
theorem dispatch_applies_registered_reducer_witness :
    (Store.mk (0 : Int) (some [("INC", some (fun (s : Int) (p : Int) => s + p))]) [] []).reducer
      = some [("INC", some (fun (s : Int) (p : Int) => s + p))] ∧
    effReducer [("INC", some (fun (s : Int) (p : Int) => s + p))] "INC"
      = some (fun (s : Int) (p : Int) => s + p) ∧
    (Store.mk (0 : Int) (some [("INC", some (fun (s : Int) (p : Int) => s + p))]) [] []).chains.lookup "INC" = none ∧
    (dispatch 1 (Store.mk (0 : Int) (some [("INC", some (fun (s : Int) (p : Int) => s + p))]) [] [])
        ⟨"INC", 5⟩ false).1.state = 5 :=
  ⟨rfl, rfl, rfl, by
    have h := (dispatch_applies_registered_reducer 0
      (Store.mk (0 : Int) (some [("INC", some (fun (s : Int) (p : Int) => s + p))]) [] [])
      [("INC", some (fun (s : Int) (p : Int) => s + p))] "INC" 5 false rfl).1
      (fun (s : Int) (p : Int) => s + p) rfl
    exact (h.2 rfl).1⟩

/-- C2: (1) `chain(A, B)` appends `B` to the ordered chain list of `A`
(creating it on first use); (2) with `chain A -> B` registered and
reducers `f` for A's type and `g` for B's type, dispatching A runs
`f`, then immediately dispatches B with the `@@chained` marker true,
whose reducer `g` receives the state already updated by `f` — the
event trace is exactly A's change emission followed by B's; (3) two
chained actions registered for A are dispatched synchronously in
registration order; (4) chaining is recursive: with A chained to B and
B chained to C, dispatching A runs the three reducers in order. -/
theorem chain_dispatches_follow_ups :
    (∀ {σ π : Type} (st : Store σ π) (A : String) (B : Action π),
      (chain st A B).chains.lookup A = some (((st.chains.lookup A).getD []) ++ [B])) ∧
    (∀ {σ π : Type} (n : Nat) (st : Store σ π) (table : RTable σ π)
      (f g : σ → π → σ) (TA : String) (pA : π) (TB : String) (pB : π),
      st.reducer = some table →
      effReducer table TA = some f →
      effReducer table TB = some g →
      st.chains.lookup TA = some [⟨TB, pB⟩] →
      st.chains.lookup TB = none →
      (dispatch (n + 2) st ⟨TA, pA⟩ false).1.state = g (f st.state pA) pB ∧
      (dispatch (n + 2) st ⟨TA, pA⟩ false).2.2 = none ∧
      (dispatch (n + 2) st ⟨TA, pA⟩ false).2.1 =
        (Event.change ⟨TA, pA, false⟩ st.state (f st.state pA)
          :: notifyFrom ⟨TA, pA, false⟩ st.state (f st.state pA) 0 st.subscribers)
        ++ (Event.change ⟨TB, pB, true⟩ (f st.state pA) (g (f st.state pA) pB)
          :: notifyFrom ⟨TB, pB, true⟩ (f st.state pA) (g (f st.state pA) pB) 0
               st.subscribers)) ∧
    (∀ {σ π : Type} (n : Nat) (st : Store σ π) (table : RTable σ π)
      (f g1 g2 : σ → π → σ) (TA : String) (pA : π) (T1 : String) (p1 : π)
      (T2 : String) (p2 : π),
      st.reducer = some table →
      effReducer table TA = some f →
      effReducer table T1 = some g1 →
      effReducer table T2 = some g2 →
      st.chains.lookup TA = some [⟨T1, p1⟩, ⟨T2, p2⟩] →
      st.chains.lookup T1 = none →
      st.chains.lookup T2 = none →
      (dispatch (n + 2) st ⟨TA, pA⟩ false).1.state
        = g2 (g1 (f st.state pA) p1) p2 ∧
      (dispatch (n + 2) st ⟨TA, pA⟩ false).2.2 = none) ∧
    (∀ {σ π : Type} (n : Nat) (st : Store σ π) (table : RTable σ π)
      (f g1 g2 : σ → π → σ) (TA : String) (pA : π) (T1 : String) (p1 : π)
      (T2 : String) (p2 : π),
      st.reducer = some table →
      effReducer table TA = some f →
      effReducer table T1 = some g1 →
      effReducer table T2 = some g2 →
      st.chains.lookup TA = some [⟨T1, p1⟩] →
      st.chains.lookup T1 = some [⟨T2, p2⟩] →
      st.chains.lookup T2 = none →
      (dispatch (n + 3) st ⟨TA, pA⟩ false).1.state
        = g2 (g1 (f st.state pA) p1) p2 ∧
      (dispatch (n + 3) st ⟨TA, pA⟩ false).2.2 = none) := by
  refine ⟨?_, ?_, ?_, ?_⟩
  · intro σ π st A B
    simpa [chain] using lookup_appendChain st.chains A B
  · intro σ π n st table f g TA pA TB pB hred hf hg hchA hchB
    refine ⟨?_, ?_, ?_⟩ <;>
      simp [dispatch, dispatchStep, hred, hf, hg, hchA, hchB, setState, runChainList]
  · intro σ π n st table f g1 g2 TA pA T1 p1 T2 p2 hred hf h1 h2 hchA hch1 hch2
    refine ⟨?_, ?_⟩ <;>
      simp [dispatch, dispatchStep, hred, hf, h1, h2, hchA, hch1, hch2, setState,
        runChainList]
  · intro σ π n st table f g1 g2 TA pA T1 p1 T2 p2 hred hf h1 h2 hchA hch1 hch2
    refine ⟨?_, ?_⟩ <;>
      simp [dispatch, dispatchStep, hred, hf, h1, h2, hchA, hch1, hch2, setState,
        runChainList]

/-- Concrete reducer table for the C2 witness: "A" adds the payload,
"B" multiplies by ten and adds the payload. -/
def c2Table : RTable Int Int :=
  [("A", some (fun (s : Int) (p : Int) => s + p)),
   ("B", some (fun (s : Int) (p : Int) => s * 10 + p))]

/-- Concrete store for the C2 witness, with `chain("A", {type:"B", payload:2})`. -/
def c2Store : Store Int Int :=
  { state := 0, reducer := some c2Table, chains := [("A", [⟨"B", 2⟩])],
    subscribers := [] }

/-- Witness for C2: dispatching "A" with payload 1 on `c2Store` ends in
state (0 + 1) * 10 + 2 = 12 — "B"'s reducer saw the state already
updated by "A"'s. -/
theorem chain_dispatches_follow_ups_witness :
    c2Store.reducer = some c2Table ∧
    effReducer c2Table "A" = some (fun (s : Int) (p : Int) => s + p) ∧
    effReducer c2Table "B" = some (fun (s : Int) (p : Int) => s * 10 + p) ∧
    c2Store.chains.lookup "A" = some [⟨"B", 2⟩] ∧
    c2Store.chains.lookup "B" = none ∧
    (dispatch 2 c2Store ⟨"A", 1⟩ false).1.state = 12 :=
  ⟨rfl, rfl, rfl, rfl, rfl, by
    have h := (chain_dispatches_follow_ups.2.1 0 c2Store c2Table
      (fun (s : Int) (p : Int) => s + p) (fun (s : Int) (p : Int) => s * 10 + p)
      "A" 1 "B" 2 rfl rfl rfl rfl rfl).1
    simpa [c2Store] using h⟩

/-- C4, counterexample: on a freshly constructed store (no `register`
call) `dispatch` throws a `TypeError` — the constructor never
initializes a reducer-table placeholder, so `this.reducer[act.type]`
reads a property of `undefined`.  The state is left unchanged by the
throw. -/
theorem dispatch_on_fresh_store_throws :
    (dispatch 1 (mkStore (σ := Int) (π := Int) 0) ⟨"A", 0⟩ false).2.2
      = some (JsErr.typeError "Cannot read properties of undefined") ∧
    (dispatch 1 (mkStore (σ := Int) (π := Int) 0) ⟨"A", 0⟩ false).1.state = 0 :=
  ⟨rfl, rfl⟩

/-- C4 (amended): once a reducer table has been registered, dispatching
an action whose type has no callable reducer never throws: it performs
no state transition, surfaces only the non-fatal warning, and still
proceeds to the chain fan-out step (a chained action with a callable
reducer still runs).  On a freshly constructed store with no `register`
call, however, dispatch throws a `TypeError`, since construction does
not initialize a reducer-table placeholder. -/
theorem dispatch_missing_reducer_warns_and_chains :
    ∀ {σ π : Type} (n : Nat) (st : Store σ π) (table : RTable σ π)
      (T : String) (p : π) (ch : Bool),
      st.reducer = some table →
      effReducer table T = none →
      ((st.chains.lookup T = none →
        dispatch (n + 1) st ⟨T, p⟩ ch = (st, [Event.warn T], none)) ∧
       (∀ (TB : String) (pB : π) (g : σ → π → σ),
        st.chains.lookup T = some [⟨TB, pB⟩] →
        effReducer table TB = some g →
        st.chains.lookup TB = none →
        (dispatch (n + 2) st ⟨T, p⟩ ch).2.1
          = Event.warn T
            :: Event.change ⟨TB, pB, true⟩ st.state (g st.state pB)
            :: notifyFrom ⟨TB, pB, true⟩ st.state (g st.state pB) 0 st.subscribers ∧
        (dispatch (n + 2) st ⟨T, p⟩ ch).1.state = g st.state pB ∧
        (dispatch (n + 2) st ⟨T, p⟩ ch).2.2 = none)) := by
  intro σ π n st table T p ch hred heff
  constructor
  · intro hch
    simp [dispatch, dispatchStep, hred, heff, hch, runChainList]
  · intro TB pB g hch hg hchB
    refine ⟨?_, ?_, ?_⟩ <;>
      simp [dispatch, dispatchStep, hred, heff, hg, hch, hchB, setState, runChainList]

/-- Witness for C4 (amended) at a concrete store with a registered
empty table and no chains: dispatching "X" only warns. -/
theorem dispatch_missing_reducer_warns_and_chains_witness :
    (Store.mk (0 : Int) (some ([] : RTable Int Int)) [] []).reducer
      = some ([] : RTable Int Int) ∧
    effReducer ([] : RTable Int Int) "X" = none ∧
    (Store.mk (0 : Int) (some ([] : RTable Int Int)) [] []).chains.lookup "X" = none ∧
    dispatch 1 (Store.mk (0 : Int) (some ([] : RTable Int Int)) [] []) ⟨"X", 0⟩ false
      = (Store.mk (0 : Int) (some ([] : RTable Int Int)) [] [], [Event.warn "X"], none) :=
  ⟨rfl, rfl, rfl,
   (dispatch_missing_reducer_warns_and_chains 0
      (Store.mk (0 : Int) (some ([] : RTable Int Int)) [] [])
      ([] : RTable Int Int) "X" 0 false rfl rfl).1 rfl⟩

/-- A fan-out starting at index `k` produces no invocation events for a
subscriber index below `k`. -/
theorem invocationsFor_notifyFrom_lt {σ π : Type} (act : CAction π) (prev next : σ) :
    ∀ (subs : List (Sub σ)) (k i : Nat), i < k →
      invocationsFor i (notifyFrom act prev next k subs) = [] := by
  intro subs
  induction subs with
  | nil => intro k i _; simp [notifyFrom, invocationsFor]
  | cons s rest ih =>
      intro k i hik
      have hk : (k == i) = false := by
        simp [beq_iff_eq]
        omega
      by_cases hg : s.active && (s.mapper next != s.mapper prev) <;>
        simp [notifyFrom, invocationsFor, List.filter_append, hg, hk] <;>
        simpa [invocationsFor] using ih (k + 1) i (by omega)

/-- The invocation events for subscriber `k + j` of a fan-out starting
at index `k` are exactly those produced by the subscriber record at
position `j`: one invocation if it is attached and its projection of
the new state differs from its projection of the previous state, none
otherwise. -/
theorem invocationsFor_notifyFrom_get {σ π : Type} (act : CAction π) (prev next : σ) :
    ∀ (subs : List (Sub σ)) (k j : Nat) (s : Sub σ), subs[j]? = some s →
      invocationsFor (k + j) (notifyFrom act prev next k subs)
        = if s.active && (s.mapper next != s.mapper prev)
          then [Event.invoke (k + j) act (s.mapper prev) (s.mapper next)] else [] := by
  intro subs
  induction subs with
  | nil => intro k j s hs; simp at hs
  | cons s0 rest ih =>
      intro k j s hs
      cases j with
      | zero =>
          have hs0 : s0 = s := by simpa using hs
          subst hs0
          have htail : invocationsFor k (notifyFrom act prev next (k + 1) rest) = [] :=
            invocationsFor_notifyFrom_lt act prev next rest (k + 1) k (by omega)
          by_cases hg : s0.active && (s0.mapper next != s0.mapper prev) <;>
            simp [notifyFrom, invocationsFor, List.filter_append, hg] <;>
            simpa [invocationsFor] using htail
      | succ j' =>
          have hs' : rest[j']? = some s := by simpa using hs
          have hne : (k == k + (j' + 1)) = false := by
            have hkk : k ≠ k + (j' + 1) := by omega
            simp [beq_iff_eq, hkk]
          have ihr := ih (k + 1) j' s hs'
          have harith : k + 1 + j' = k + (j' + 1) := by omega
          rw [harith] at ihr
          by_cases hg : s0.active && (s0.mapper next != s0.mapper prev) <;>
            simp [notifyFrom, invocationsFor, List.filter_append, hg, hne] <;>
            simpa [invocationsFor] using ihr

/-- C3: when the private state-transition step commits a transition
from `prevState` to `nextState`, a subscriber registered with mapper
`m` (and still attached) has its callback invoked exactly once, with
arguments `(action, m(prevState), m(nextState))`, when
`m(nextState) !== m(prevState)`, and is not invoked at all when the
two derived values are equal. -/
theorem subscriber_called_iff_projection_changed :
    ∀ {σ π : Type} (st : Store σ π) (next : σ) (act : CAction π) (i : Nat) (s : Sub σ),
      st.subscribers[i]? = some s →
      s.active = true →
      invocationsFor i (setState st next act).2
        = if s.mapper next ≠ s.mapper st.state
          then [Event.invoke i act (s.mapper st.state) (s.mapper next)] else [] := by
  intro σ π st next act i s hs hact
  have h := invocationsFor_notifyFrom_get act st.state next st.subscribers 0 i s hs
  rw [Nat.zero_add] at h
  by_cases hne : s.mapper next = s.mapper st.state <;>
    simp [setState, invocationsFor, hact, hne, bne_iff_ne] at h ⊢ <;>
    simpa [invocationsFor] using h

/-- Witness for C3: one attached subscriber projecting the whole `Int`
state; a transition from 0 to 1 invokes it once with the two projected
values, and a transition from 0 to 0 does not invoke it. -/
theorem subscriber_called_iff_projection_changed_witness :
    (Store.mk (0 : Int) (none : Option (RTable Int Int)) []
        [⟨fun s => JsVal.numV s, true⟩]).subscribers[0]?
      = some ⟨fun s => JsVal.numV s, true⟩ ∧
    (Sub.mk (fun (s : Int) => JsVal.numV s) true).active = true ∧
    invocationsFor 0 (setState (Store.mk (0 : Int) (none : Option (RTable Int Int)) []
        [⟨fun s => JsVal.numV s, true⟩]) 1 ⟨"A", 0, false⟩).2
      = [Event.invoke 0 ⟨"A", 0, false⟩ (JsVal.numV 0) (JsVal.numV 1)] ∧
    invocationsFor 0 (setState (Store.mk (0 : Int) (none : Option (RTable Int Int)) []
        [⟨fun s => JsVal.numV s, true⟩]) 0 ⟨"A", 0, false⟩).2
      = [] := by
  refine ⟨rfl, rfl, ?_, ?_⟩
  · have h := subscriber_called_iff_projection_changed
      (Store.mk (0 : Int) (none : Option (RTable Int Int)) []
        [⟨fun s => JsVal.numV s, true⟩]) 1 ⟨"A", 0, false⟩ 0
      ⟨fun s => JsVal.numV s, true⟩ rfl rfl
    simpa using h
  · have h := subscriber_called_iff_projection_changed
      (Store.mk (0 : Int) (none : Option (RTable Int Int)) []
        [⟨fun s => JsVal.numV s, true⟩]) 0 ⟨"A", 0, false⟩ 0
      ⟨fun s => JsVal.numV s, true⟩ rfl rfl
    simpa using h

/-- Subscriber fan-out emits only callback invocations, never `change`
events. -/
theorem changeEvents_notifyFrom {σ π : Type} (act : CAction π) (prev next : σ) :
    ∀ (subs : List (Sub σ)) (k : Nat),
      changeEvents (notifyFrom act prev next k subs) = [] := by
  intro subs
  induction subs with
  | nil => intro k; simp [notifyFrom, changeEvents]
  | cons s rest ih =>
      intro k
      by_cases hg : s.active && (s.mapper next != s.mapper prev) <;>
        simp [notifyFrom, changeEvents, List.filter_append, hg] <;>
        simpa [changeEvents] using ih (k + 1)

/-- C10: the store's `state` field is written only by the private
`[setState]` step: `register`, `chain`, `subscribe` and `unsubscribe`
all leave it unchanged, `getState` mutates no heap object, and each
committed transition emits exactly one `change` notification, carrying
the dispatched action together with the previous and the new state. -/
theorem state_changed_only_by_setState :
    (∀ {σ π : Type} (st : Store σ π) (m : RTable σ π), (register st m).state = st.state) ∧
    (∀ {σ π : Type} (st : Store σ π) (fr : String) (a : Action π),
      (chain st fr a).state = st.state) ∧
    (∀ {σ π : Type} (st : Store σ π) (m : σ → JsVal) (cb : JsVal)
       (st' : Store σ π) (i : Nat),
      subscribe st m cb = .ok (st', i) → st'.state = st.state) ∧
    (∀ {σ π : Type} (st : Store σ π) (v : JsVal) (st' : Store σ π),
      unsubscribe st v = .ok st' → st'.state = st.state) ∧
    (∀ (h : Heap) (r j : Nat), j < h.objs.length → (getState h r).1.get j = h.get j) ∧
    (∀ {σ π : Type} (st : Store σ π) (next : σ) (act : CAction π),
      (setState st next act).1.state = next ∧
      changeEvents (setState st next act).2 = [Event.change act st.state next]) := by
  refine ⟨fun st m => rfl, fun st fr a => rfl, ?_, ?_, ?_, ?_⟩
  · intro σ π st m cb st' i hok
    by_cases hf : isFunc cb
    · simp only [subscribe, if_pos hf, Except.ok.injEq, Prod.mk.injEq] at hok
      rw [← hok.1]
    · simp [subscribe, hf] at hok
  · intro σ π st v st' hok
    cases v <;>
      first
        | (simp only [unsubscribe, Except.ok.injEq] at hok; rw [← hok])
        | simp [unsubscribe, isNumber, jsTypeof] at hok
  · intro h r j hj
    simp only [getState, objAssignNew, Heap.alloc, Heap.get]
    rw [List.getElem?_append, if_pos hj]
  · intro σ π st next act
    refine ⟨rfl, ?_⟩
    simp [setState, changeEvents]
    simpa [changeEvents] using changeEvents_notifyFrom act st.state next st.subscribers 0

/-- Witness for C10 at concrete inputs: a subscribe, an unsubscribe, a
heap read and a committed transition on small stores. -/
theorem state_changed_only_by_setState_witness :
    subscribe (mkStore (σ := Int) (π := Int) 7) (fun s => JsVal.numV s) (JsVal.funcV 0)
      = .ok (Store.mk (7 : Int) none [] [⟨fun s => JsVal.numV s, true⟩], 0) ∧
    (Store.mk (7 : Int) (none : Option (RTable Int Int)) []
        [⟨fun s => JsVal.numV s, true⟩]).state = (7 : Int) ∧
    unsubscribe (mkStore (σ := Int) (π := Int) 7) (JsVal.numV 0)
      = .ok (mkStore (σ := Int) (π := Int) 7) ∧
    (0 : Nat) < (Heap.mk [[("k", JsVal.numV 3)]]).objs.length ∧
    ((Store.mk (7 : Int) (none : Option (RTable Int Int)) [] []).state = (7 : Int) ∧
     (getState (Heap.mk [[("k", JsVal.numV 3)]]) 0).1.get 0
       = (Heap.mk [[("k", JsVal.numV 3)]]).get 0 ∧
     (setState (mkStore (σ := Int) (π := Int) 7) 9 ⟨"A", 0, false⟩).1.state = 9 ∧
     changeEvents (setState (mkStore (σ := Int) (π := Int) 7) 9 ⟨"A", 0, false⟩).2
       = [Event.change ⟨"A", 0, false⟩ 7 9]) := by
  refine ⟨rfl, ?_, rfl, by decide, ?_, ?_, ?_, ?_⟩
  · exact state_changed_only_by_setState.2.2.1
      (mkStore (σ := Int) (π := Int) 7) (fun s => JsVal.numV s) (JsVal.funcV 0)
      (Store.mk (7 : Int) none [] [⟨fun s => JsVal.numV s, true⟩]) 0 rfl
  · rfl
  · exact state_changed_only_by_setState.2.2.2.2.1 (Heap.mk [[("k", JsVal.numV 3)]]) 0 0
      (by decide)
  · exact (state_changed_only_by_setState.2.2.2.2.2
      (mkStore (σ := Int) (π := Int) 7) 9 ⟨"A", 0, false⟩).1
  · exact (state_changed_only_by_setState.2.2.2.2.2
      (mkStore (σ := Int) (π := Int) 7) 9 ⟨"A", 0, false⟩).2

/-- A chain fan-out never touches the subscriber list, provided each
recursive dispatch does not. -/
theorem runChainList_preserves_subscribers {σ π : Type}
    (go : Store σ π → Action π → DResult σ π)
    (hgo : ∀ st a, ((go st a).1).subscribers = st.subscribers) :
    ∀ (l : List (Action π)) (st : Store σ π),
      ((runChainList go st l).1).subscribers = st.subscribers := by
  intro l
  induction l with
  | nil => intro st; rfl
  | cons a rest ih =>
      intro st
      cases herr : (go st a).2.2 with
      | some e => simp [runChainList, herr, hgo]
      | none => simp [runChainList, herr, ih, hgo]

/-- `dispatch` never adds, removes or replaces subscriber records. -/
theorem dispatch_preserves_subscribers {σ π : Type} :
    ∀ (n : Nat) (st : Store σ π) (a : Action π) (ch : Bool),
      ((dispatch n st a ch).1).subscribers = st.subscribers := by
  intro n
  induction n with
  | zero => intro st a ch; rfl
  | succ n ih =>
      intro st a ch
      cases hred : st.reducer with
      | none => simp [dispatch, dispatchStep, hred]
      | some table =>
          have hrun := runChainList_preserves_subscribers
            (fun st' a' => dispatch n st' a' true) (fun st' a' => ih st' a' true)
          cases heff : effReducer table a.type with
          | some f => simp [dispatch, dispatchStep, hred, heff, setState, hrun]
          | none => simp [dispatch, dispatchStep, hred, heff, hrun]

/-- A chain fan-out produces no invocation of a detached subscriber,
provided each recursive dispatch does not and preserves the
subscriber list. -/
theorem runChainList_no_invoke_detached {σ π : Type} (i : Nat) (s : Sub σ)
    (go : Store σ π → Action π → DResult σ π)
    (hpres : ∀ st a, ((go st a).1).subscribers = st.subscribers)
    (hno : ∀ st a, st.subscribers[i]? = some s →
      invocationsFor i ((go st a).2.1) = []) :
    ∀ (l : List (Action π)) (st : Store σ π), st.subscribers[i]? = some s →
      invocationsFor i ((runChainList go st l).2.1) = [] := by
  intro l
  induction l with
  | nil => intro st _; simp [runChainList, invocationsFor]
  | cons a rest ih =>
      intro st hs
      cases herr : (go st a).2.2 with
      | some e =>
          have h1 := hno st a hs
          simp [runChainList, herr, invocationsFor] at h1 ⊢
          exact h1
      | none =>
          have hs' : ((go st a).1).subscribers[i]? = some s := by
            rw [hpres]; exact hs
          have h1 := hno st a hs
          have h2 := ih ((go st a).1) hs'
          simp [runChainList, herr, invocationsFor, List.filter_append] at h1 h2 ⊢
          exact ⟨h1, h2⟩

/-- A detached (inactive) subscriber receives no invocation from any
dispatch, whatever its chain fan-out does. -/
theorem dispatch_no_invoke_detached {σ π : Type} (i : Nat) (s : Sub σ)
    (hact : s.active = false) :
    ∀ (n : Nat) (st : Store σ π) (a : Action π) (ch : Bool),
      st.subscribers[i]? = some s →
      invocationsFor i ((dispatch n st a ch).2.1) = [] := by
  intro n
  induction n with
  | zero => intro st a ch _; simp [dispatch, invocationsFor]
  | succ n ih =>
      intro st a ch hs
      cases hred : st.reducer with
      | none => simp [dispatch, dispatchStep, hred, invocationsFor]
      | some table =>
          have hrun := runChainList_no_invoke_detached i s
            (fun st' a' => dispatch n st' a' true)
            (fun st' a' => dispatch_preserves_subscribers n st' a' true)
            (fun st' a' hs' => ih st' a' true hs')
          cases heff : effReducer table a.type with
          | some f =>
              have h := invocationsFor_notifyFrom_get
                (⟨a.type, a.payload, ch⟩ : CAction π) st.state (f st.state a.payload)
                st.subscribers 0 i s hs
              rw [Nat.zero_add] at h
              have hnf : invocationsFor i (notifyFrom ⟨a.type, a.payload, ch⟩ st.state
                  (f st.state a.payload) 0 st.subscribers) = [] := by
                simpa [hact] using h
              have hchain := hrun ((st.chains.lookup a.type).getD [])
                ({ st with state := f st.state a.payload }) (by simpa using hs)
              simp [dispatch, dispatchStep, hred, heff, setState, invocationsFor,
                List.filter_append] at hnf hchain ⊢
              exact ⟨hnf, hchain⟩
          | none =>
              have hchain := hrun ((st.chains.lookup a.type).getD []) st hs
              simp [dispatch, dispatchStep, hred, heff, invocationsFor,
                List.filter_append] at hchain ⊢
              exact hchain

/-- A detached subscriber receives no invocation across any sequence of
dispatches. -/
theorem dispatchSeq_no_invoke_detached {σ π : Type} (i : Nat) (s : Sub σ)
    (hact : s.active = false) (n : Nat) :
    ∀ (acts : List (Action π)) (st : Store σ π), st.subscribers[i]? = some s →
      invocationsFor i (dispatchSeq n st acts) = [] := by
  intro acts
  induction acts with
  | nil => intro st _; simp [dispatchSeq, invocationsFor]
  | cons a rest ih =>
      intro st hs
      have h1 := dispatch_no_invoke_detached i s hact n st a false hs
      cases herr : (dispatch n st a false).2.2 with
      | some e =>
          simp [dispatchSeq, herr, invocationsFor] at h1 ⊢
          exact h1
      | none =>
          have hs' : ((dispatch n st a false).1).subscribers[i]? = some s := by
            rw [dispatch_preserves_subscribers]; exact hs
          have h2 := ih ((dispatch n st a false).1) hs'
          simp [dispatchSeq, herr, invocationsFor, List.filter_append] at h1 h2 ⊢
          exact ⟨h1, h2⟩

/-- Detaching the wrapper at index `i` marks exactly that record
inactive. -/
theorem detachAt_getElem {σ : Type} :
    ∀ (subs : List (Sub σ)) (i : Nat) (s : Sub σ), subs[i]? = some s →
      (detachAt subs i)[i]? = some { s with active := false } := by
  intro subs
  induction subs with
  | nil => intro i s hs; simp at hs
  | cons s0 rest ih =>
      intro i s hs
      cases i with
      | zero =>
          have hs0 : s0 = s := by simpa using hs
          subst hs0
          simp [detachAt]
      | succ j =>
          have hs' : rest[j]? = some s := by simpa using hs
          simpa [detachAt] using ih j s hs'

/-- C7: `unsubscribe(index)` throws a `TypeError` whenever
`typeof index` is not "number"; and for an index `i` returned by
`subscribe`, after `unsubscribe(i)` succeeds the subscriber at index
`i` receives no further callback invocation, however many dispatches
follow. -/
theorem unsubscribe_throws_on_nonnumber_and_detaches :
    (∀ {σ π : Type} (st : Store σ π) (v : JsVal), isNumber v = false →
      unsubscribe st v = .error (JsErr.typeError "Expected a Number")) ∧
    (∀ {σ π : Type} (st : Store σ π) (m : σ → JsVal) (cb : JsVal)
       (st1 : Store σ π) (i : Nat) (st2 : Store σ π),
      subscribe st m cb = .ok (st1, i) →
      unsubscribe st1 (JsVal.numV i) = .ok st2 →
      ∀ (n : Nat) (acts : List (Action π)),
        invocationsFor i (dispatchSeq n st2 acts) = []) := by
  constructor
  · intro σ π st v hv
    cases v <;> simp_all [unsubscribe, isNumber, jsTypeof]
  · intro σ π st m cb st1 i st2 hsub huns n acts
    by_cases hf : isFunc cb
    · simp only [subscribe, if_pos hf, Except.ok.injEq, Prod.mk.injEq] at hsub
      obtain ⟨hst1, hi⟩ := hsub
      subst hi
      simp only [unsubscribe, Except.ok.injEq,
        if_pos (Int.natCast_nonneg st.subscribers.length)] at huns
      have hs1 : (st.subscribers ++ [⟨m, true⟩] : List (Sub σ))[st.subscribers.length]?
          = some ⟨m, true⟩ :=
        List.getElem?_concat_length ..
      have hs2 := detachAt_getElem (st.subscribers ++ [⟨m, true⟩])
        st.subscribers.length ⟨m, true⟩ hs1
      have hsub2 : st2.subscribers[st.subscribers.length]? = some ⟨m, false⟩ := by
        rw [← huns, ← hst1]
        simpa [Int.toNat_natCast] using hs2
      exact dispatchSeq_no_invoke_detached st.subscribers.length ⟨m, false⟩ rfl n acts
        st2 hsub2
    · simp [subscribe, hf] at hsub

/-- Witness for C7: one registered subscriber on a one-reducer store;
a non-number argument throws, and after unsubscribing index 0 a
state-changing dispatch produces no invocation of subscriber 0. -/
theorem unsubscribe_throws_on_nonnumber_and_detaches_witness :
    isNumber JsVal.nullV = false ∧
    unsubscribe (mkStore (σ := Int) (π := Int) 0) JsVal.nullV
      = .error (JsErr.typeError "Expected a Number") ∧
    subscribe (Store.mk (0 : Int) (some [("A", some (fun (s : Int) (p : Int) => s + p))]) [] [])
        (fun s => JsVal.numV s) (JsVal.funcV 0)
      = .ok (Store.mk (0 : Int) (some [("A", some (fun (s : Int) (p : Int) => s + p))]) []
          [⟨fun s => JsVal.numV s, true⟩], 0) ∧
    unsubscribe (Store.mk (0 : Int) (some [("A", some (fun (s : Int) (p : Int) => s + p))]) []
          [⟨fun s => JsVal.numV s, true⟩]) (JsVal.numV 0)
      = .ok (Store.mk (0 : Int) (some [("A", some (fun (s : Int) (p : Int) => s + p))]) []
          [⟨fun s => JsVal.numV s, false⟩]) ∧
    invocationsFor 0 (dispatchSeq 1
        (Store.mk (0 : Int) (some [("A", some (fun (s : Int) (p : Int) => s + p))]) []
          [⟨fun s => JsVal.numV s, false⟩]) [⟨"A", 1⟩]) = [] := by
  refine ⟨rfl,
    unsubscribe_throws_on_nonnumber_and_detaches.1
      (mkStore (σ := Int) (π := Int) 0) JsVal.nullV rfl,
    rfl, rfl, ?_⟩
  exact unsubscribe_throws_on_nonnumber_and_detaches.2
    (Store.mk (0 : Int) (some [("A", some (fun (s : Int) (p : Int) => s + p))]) [] [])
    (fun s => JsVal.numV s) (JsVal.funcV 0)
    (Store.mk (0 : Int) (some [("A", some (fun (s : Int) (p : Int) => s + p))]) []
      [⟨fun s => JsVal.numV s, true⟩]) 0
    (Store.mk (0 : Int) (some [("A", some (fun (s : Int) (p : Int) => s + p))]) []
      [⟨fun s => JsVal.numV s, false⟩]) rfl rfl 1 [⟨"A", 1⟩]

end ObservableStore
